import Mathlib

/-!
Shallow embedding of the episode URL cache subsystem of the
thechosen-downloader repository (cache.py, extractor.py, preprocessor.py and
the selection parsing in cli.py), together with proofs about the claims of
its specification.

Modelling conventions:
- Python `int` is `Int`; captured decimal digit groups produce `Nat`.
- Python strings are `String`; regular-expression character classes are
  modelled over ASCII (`\s` as the ASCII whitespace characters, `\d` as
  ASCII digits).
- The filesystem is a map from path strings to file data; a file that
  exists but is not a parseable cache document is `FileData.garbage`.
- Exceptions are modelled with `Except` / explicit failure flags; printed
  warnings are accumulated into a list of message strings.
-/

/-- One resolved episode, mirroring the CacheEntry class of cache.py.
`extracted_at` is always populated at construction time (cache.py line 26). -/
structure CacheEntry where
  episode_number : Int
  title : String
  episode_url : String
  m3u8_url : String
  extracted_at : String
deriving DecidableEq, Repr

/-- In-memory state of a Cache object: the `season` and `episodes` fields. -/
structure CacheState where
  season : Option Int
  episodes : List CacheEntry
deriving DecidableEq, Repr

/-- Comparison key used by `self.episodes.sort(key=lambda ep: ep.episode_number)`. -/
def entryLE (a b : CacheEntry) : Bool :=
  decide (a.episode_number ≤ b.episode_number)

/-- Cache.add_episode: drop any entry with the same episode number, append
the new entry, re-sort ascending by episode number (Python list.sort is a
stable merge sort). -/
def add_episode (st : CacheState) (entry : CacheEntry) : CacheState :=
  { st with
    episodes :=
      ((st.episodes.filter fun ep =>
          decide (ep.episode_number ≠ entry.episode_number)) ++ [entry]).mergeSort
        entryLE }

/-- Cache.get_episode: first entry whose number equals the request, else none. -/
def get_episode (st : CacheState) (episode_number : Int) : Option CacheEntry :=
  st.episodes.find? fun ep => decide (ep.episode_number = episode_number)

/-- Cache.get_episodes_in_range: entries whose number lies in the inclusive range. -/
def get_episodes_in_range (st : CacheState) (start stop : Int) : List CacheEntry :=
  st.episodes.filter fun ep =>
    decide (start ≤ ep.episode_number ∧ ep.episode_number ≤ stop)

/-- Cache.get_all_episodes returns a defensive copy of the episode list; in a
pure model the copy is the list itself. -/
def get_all_episodes (st : CacheState) : List CacheEntry :=
  st.episodes

/-- Cache.clear: empty episode list, no season. -/
def cache_clear (_st : CacheState) : CacheState :=
  { season := none, episodes := [] }

/-- State of a freshly constructed Cache object (cache.py lines 53-56). -/
def freshCache : CacheState :=
  { season := none, episodes := [] }

/-- A sequence of add_episode calls applied in order. -/
def apply_adds (st : CacheState) (es : List CacheEntry) : CacheState :=
  es.foldl add_episode st

/-! Helper lemmas about sortedness of the episode list. -/

theorem entryLE_trans (a b c : CacheEntry) (hab : entryLE a b) (hbc : entryLE b c) :
    entryLE a c := by
  simp only [entryLE, decide_eq_true_iff] at *
  exact le_trans hab hbc

theorem entryLE_total (a b : CacheEntry) : entryLE a b || entryLE b a := by
  simp only [entryLE, Bool.or_eq_true, decide_eq_true_iff]
  exact Int.le_total _ _

/-- After any add_episode the episode list is sorted (non-strictly) by number. -/
theorem add_episode_sorted (st : CacheState) (e : CacheEntry) :
    (add_episode st e).episodes.Pairwise
      fun a b => a.episode_number ≤ b.episode_number := by
  have h := List.sorted_mergeSort entryLE_trans entryLE_total
    ((st.episodes.filter fun ep =>
        decide (ep.episode_number ≠ e.episode_number)) ++ [e])
  exact h.imp fun hab => by
    simpa [entryLE, decide_eq_true_iff] using hab

/-- The sorted result is a permutation of the filtered list with the new
entry appended. -/
theorem add_episode_perm (st : CacheState) (e : CacheEntry) :
    (add_episode st e).episodes.Perm
      ((st.episodes.filter fun ep =>
          decide (ep.episode_number ≠ e.episode_number)) ++ [e]) :=
  List.mergeSort_perm _ _

/-- Key uniqueness is preserved by add_episode. -/
theorem add_episode_nodup (st : CacheState) (e : CacheEntry)
    (h : (st.episodes.map CacheEntry.episode_number).Nodup) :
    ((add_episode st e).episodes.map CacheEntry.episode_number).Nodup := by
  have hperm := (add_episode_perm st e).map CacheEntry.episode_number
  refine hperm.nodup_iff.mpr ?_
  rw [List.map_append, List.nodup_append]
  refine ⟨?_, by simp, ?_⟩
  · exact h.sublist ((st.episodes.filter_sublist ..).map _)
  · intro n hn hn'
    simp only [List.map_cons, List.map_nil, List.mem_singleton] at hn'
    subst hn'
    rcases List.mem_map.mp hn with ⟨ep, hep, hkey⟩
    rcases List.mem_filter.mp hep with ⟨_, hne⟩
    exact (decide_eq_true_iff.mp hne) hkey

/-- With unique keys, sortedness by ≤ upgrades to strict ascent. -/
theorem strict_of_sorted_nodup (l : List CacheEntry)
    (hs : l.Pairwise fun a b => a.episode_number ≤ b.episode_number)
    (hn : (l.map CacheEntry.episode_number).Nodup) :
    l.Pairwise fun a b => a.episode_number < b.episode_number := by
  have hne : l.Pairwise fun a b => a.episode_number ≠ b.episode_number :=
    (List.pairwise_map).mp hn
  exact (hs.and hne).imp fun h => lt_of_le_of_ne h.1 h.2

/-- add_episode on a store with unique keys yields a strictly ascending list. -/
theorem add_episode_strict (st : CacheState) (e : CacheEntry)
    (h : (st.episodes.map CacheEntry.episode_number).Nodup) :
    (add_episode st e).episodes.Pairwise
      fun a b => a.episode_number < b.episode_number :=
  strict_of_sorted_nodup _ (add_episode_sorted st e) (add_episode_nodup st e h)

/-- apply_adds preserves key uniqueness. -/
theorem apply_adds_nodup (es : List CacheEntry) :
    ∀ st : CacheState, (st.episodes.map CacheEntry.episode_number).Nodup →
      ((apply_adds st es).episodes.map CacheEntry.episode_number).Nodup := by
  induction es with
  | nil => intro st h; exact h
  | cons e es ih =>
      intro st h
      exact ih (add_episode st e) (add_episode_nodup st e h)

/-- apply_adds on a store with unique keys yields a strictly ascending list,
provided the store was already strictly ascending. -/
theorem apply_adds_strict (es : List CacheEntry) :
    ∀ st : CacheState,
      (st.episodes.map CacheEntry.episode_number).Nodup →
      st.episodes.Pairwise (fun a b => a.episode_number < b.episode_number) →
      (apply_adds st es).episodes.Pairwise
        fun a b => a.episode_number < b.episode_number := by
  induction es with
  | nil => intro st _ hs; exact hs
  | cons e es ih =>
      intro st h _
      exact ih (add_episode st e) (add_episode_nodup st e h)
        (add_episode_strict st e h)

/-- C4. For every starting store state reachable by add_episode calls from the
empty store, and for every finite sequence of further add_episode calls with
arbitrary entries in any order, get_all_episodes() afterwards is strictly
ascending by episode_number (sorted, with no two entries sharing a number). -/
theorem C4_sort_invariant (es1 es2 : List CacheEntry) :
    (get_all_episodes (apply_adds (apply_adds freshCache es1) es2)).Pairwise
      fun a b => a.episode_number < b.episode_number := by
  have h0 : ((freshCache).episodes.map CacheEntry.episode_number).Nodup := by
    simp [freshCache]
  have h1 := apply_adds_nodup es1 freshCache h0
  have hs1 : (apply_adds freshCache es1).episodes.Pairwise
      (fun a b => a.episode_number < b.episode_number) := by
    induction es1 with
    | nil => simp [apply_adds, freshCache]
    | cons e es ih =>
        have := apply_adds_strict es (add_episode freshCache e)
          (add_episode_nodup freshCache e h0) (add_episode_strict freshCache e h0)
        simpa [apply_adds] using this
  exact apply_adds_strict es2 _ h1 hs1

/-- A strictly ascending episode list has no duplicate keys. -/
theorem nodup_keys_of_strict (l : List CacheEntry)
    (h : l.Pairwise fun a b => a.episode_number < b.episode_number) :
    (l.map CacheEntry.episode_number).Nodup := by
  exact (List.pairwise_map).mpr (h.imp fun hab => ne_of_lt hab)

/-- After add_episode exactly the new entry carries the new key. -/
theorem add_filter_same (st : CacheState) (e : CacheEntry) :
    ((add_episode st e).episodes.filter
        fun x => decide (x.episode_number = e.episode_number)) = [e] := by
  have hperm := (add_episode_perm st e).filter
    fun x => decide (x.episode_number = e.episode_number)
  rw [List.filter_append] at hperm
  have h1 : ((st.episodes.filter fun ep =>
      decide (ep.episode_number ≠ e.episode_number)).filter
        fun x => decide (x.episode_number = e.episode_number)) = [] := by
    rw [List.filter_filter]
    apply List.filter_eq_nil_iff.mpr
    intro a _
    simp only [Bool.and_eq_true, decide_eq_true_iff]
    tauto
  have h2 : ([e].filter fun x => decide (x.episode_number = e.episode_number)) = [e] := by
    simp
  rw [h1, h2] at hperm
  exact List.perm_singleton.mp hperm

/-- add_episode leaves the multiset of entries with other keys unchanged. -/
theorem add_filter_other (st : CacheState) (e : CacheEntry) :
    ((add_episode st e).episodes.filter
        fun x => decide (x.episode_number ≠ e.episode_number)).Perm
      (st.episodes.filter fun x => decide (x.episode_number ≠ e.episode_number)) := by
  have hperm := (add_episode_perm st e).filter
    fun x => decide (x.episode_number ≠ e.episode_number)
  rw [List.filter_append] at hperm
  have h1 : ((st.episodes.filter fun ep =>
      decide (ep.episode_number ≠ e.episode_number)).filter
        fun x => decide (x.episode_number ≠ e.episode_number))
      = st.episodes.filter fun ep => decide (ep.episode_number ≠ e.episode_number) := by
    rw [List.filter_filter]
    apply List.filter_congr
    intro a _
    simp
  have h2 : ([e].filter fun x => decide (x.episode_number ≠ e.episode_number)) = [] := by
    simp
  rw [h1, h2, List.append_nil] at hperm
  exact hperm

/-- C5. For every store state and entries e1, e2 sharing an episode_number,
add_episode(e1) then add_episode(e2) leaves exactly one entry with that
number, namely e2; the other entries are preserved as a set, the result is
sorted, and on an already strictly-sorted store the other entries keep their
exact order. -/
theorem C5_idempotent_upsert (sn : Option Int) (l : List CacheEntry)
    (e1 e2 : CacheEntry) (h : e1.episode_number = e2.episode_number) :
    ((add_episode (add_episode ⟨sn, l⟩ e1) e2).episodes.filter
        fun x => decide (x.episode_number = e2.episode_number)) = [e2]
    ∧ ((add_episode (add_episode ⟨sn, l⟩ e1) e2).episodes.filter
        fun x => decide (x.episode_number ≠ e2.episode_number)).Perm
          (l.filter fun x => decide (x.episode_number ≠ e2.episode_number))
    ∧ (add_episode (add_episode ⟨sn, l⟩ e1) e2).episodes.Pairwise
        (fun a b => a.episode_number ≤ b.episode_number)
    ∧ (l.Pairwise (fun a b => a.episode_number < b.episode_number) →
        ((add_episode (add_episode ⟨sn, l⟩ e1) e2).episodes.filter
          fun x => decide (x.episode_number ≠ e2.episode_number))
        = l.filter fun x => decide (x.episode_number ≠ e2.episode_number)) := by
  have hpred : (fun x : CacheEntry => decide (x.episode_number ≠ e2.episode_number))
      = fun x : CacheEntry => decide (x.episode_number ≠ e1.episode_number) := by
    funext x
    rw [h]
  have hother : ((add_episode (add_episode ⟨sn, l⟩ e1) e2).episodes.filter
      fun x => decide (x.episode_number ≠ e2.episode_number)).Perm
        (l.filter fun x => decide (x.episode_number ≠ e2.episode_number)) := by
    refine (add_filter_other (add_episode ⟨sn, l⟩ e1) e2).trans ?_
    rw [hpred]
    exact add_filter_other ⟨sn, l⟩ e1
  refine ⟨add_filter_same _ e2, hother, add_episode_sorted _ e2, ?_⟩
  intro hlt
  haveI : IsAntisymm CacheEntry (fun a b => a.episode_number < b.episode_number) :=
    ⟨fun a b hab hba => absurd hba (not_lt.mpr (le_of_lt hab))⟩
  have hnodup : (l.map CacheEntry.episode_number).Nodup := nodup_keys_of_strict l hlt
  have hstrict : (add_episode (add_episode ⟨sn, l⟩ e1) e2).episodes.Pairwise
      fun a b => a.episode_number < b.episode_number :=
    add_episode_strict _ e2 (add_episode_nodup ⟨sn, l⟩ e1 hnodup)
  exact List.eq_of_perm_of_sorted hother (hstrict.filter _) (hlt.filter _)

/-- Closed instance of C5_idempotent_upsert at a concrete store and pair of
entries sharing episode number 2. -/
theorem C5_idempotent_upsert_witness :
    (CacheEntry.mk 2 "a" "ua" "ma" "t1").episode_number
      = (CacheEntry.mk 2 "b" "ub" "mb" "t2").episode_number
    ∧ ((add_episode (add_episode ⟨some 1,
          [CacheEntry.mk 1 "x" "ux" "mx" "t0", CacheEntry.mk 3 "y" "uy" "my" "t0"]⟩
          (CacheEntry.mk 2 "a" "ua" "ma" "t1")) (CacheEntry.mk 2 "b" "ub" "mb" "t2")).episodes.filter
        fun x => decide (x.episode_number = (CacheEntry.mk 2 "b" "ub" "mb" "t2").episode_number))
          = [CacheEntry.mk 2 "b" "ub" "mb" "t2"] :=
  ⟨rfl, (C5_idempotent_upsert (some 1)
    [CacheEntry.mk 1 "x" "ux" "mx" "t0", CacheEntry.mk 3 "y" "uy" "my" "t0"]
    (CacheEntry.mk 2 "a" "ua" "ma" "t1") (CacheEntry.mk 2 "b" "ub" "mb" "t2") rfl).1⟩

/-! Persistence model for cache.py load/save. The filesystem is a map from
path strings to file data; a file that exists but is not a valid JSON cache
document is represented as garbage. -/

/-- Dictionary produced for one episode by CacheEntry.to_dict / consumed by
CacheEntry.from_dict; a `none` field models a missing key. -/
structure EntryDict where
  episode_number : Option Int
  title : Option String
  episode_url : Option String
  m3u8_url : Option String
  extracted_at : Option String
deriving DecidableEq, Repr

/-- Top-level JSON object of the cache file: the season value and the
episodes array. -/
structure CacheDoc where
  season : Option Int
  episodes : List EntryDict
deriving DecidableEq, Repr

/-- Content of a file: either a parseable cache document or anything that
makes json.load (or reading) raise. -/
inductive FileData where
  | garbage
  | doc (d : CacheDoc)
deriving DecidableEq, Repr

/-- CacheEntry.__init__: `extracted_at or datetime.now().isoformat()` — the
falsy values None and the empty string are replaced by the current time. -/
def mkCacheEntry (episode_number : Int) (title episode_url m3u8_url : String)
    (extracted_at : Option String) (now : String) : CacheEntry :=
  { episode_number, title, episode_url, m3u8_url,
    extracted_at :=
      match extracted_at with
      | some s => if s = "" then now else s
      | none => now }

/-- CacheEntry.to_dict: all five fields are emitted. -/
def to_dict (e : CacheEntry) : EntryDict :=
  { episode_number := some e.episode_number, title := some e.title,
    episode_url := some e.episode_url, m3u8_url := some e.m3u8_url,
    extracted_at := some e.extracted_at }

/-- CacheEntry.from_dict: the first four keys are mandatory (a missing key
raises KeyError, modelled as none); extracted_at is read with .get and
defaulted in the constructor. -/
def from_dict (now : String) (d : EntryDict) : Option CacheEntry :=
  match d.episode_number, d.title, d.episode_url, d.m3u8_url with
  | some n, some t, some u, some m =>
      some (mkCacheEntry n t u m d.extracted_at now)
  | _, _, _, _ => none

/-- Collect a list of optional values, failing when any is missing — the
effect of a list comprehension whose body can raise. -/
def allSome {α : Type} : List (Option α) → Option (List α)
  | [] => some []
  | none :: _ => none
  | some a :: rest => (allSome rest).map fun l => a :: l

/-- Serialization performed by Cache.save: the data dictionary built from
the in-memory state. -/
def serializeCache (st : CacheState) : CacheDoc :=
  { season := st.season, episodes := st.episodes.map to_dict }

/-- Result of Cache.load: the returned boolean and the state of the object
afterwards. -/
structure LoadResult where
  ok : Bool
  state : CacheState
deriving DecidableEq, Repr

/-- Cache.load. A missing file initializes the empty state and succeeds. An
unreadable or unparseable file fails with the object untouched. A parseable
document assigns season first, then rebuilds the episode list; if any
episode dictionary is malformed the comprehension raises after season was
assigned, so load fails with season updated and episodes untouched. -/
def cache_load (files : String → Option FileData) (path : String) (now : String)
    (prior : CacheState) : LoadResult :=
  match files path with
  | none => { ok := true, state := { season := none, episodes := [] } }
  | some FileData.garbage => { ok := false, state := prior }
  | some (FileData.doc d) =>
      match allSome (d.episodes.map (from_dict now)) with
      | some eps => { ok := true, state := { season := d.season, episodes := eps } }
      | none => { ok := false, state := { season := d.season, episodes := prior.episodes } }

/-- Result of Cache.save: the returned boolean and the filesystem afterwards. -/
structure SaveResult where
  ok : Bool
  files : String → Option FileData

/-- Cache.save with failure injection. `earlyFails` models any exception
before the temporary file exists (mkdir or mkstemp); `writeFails` a failure
of json.dump / the file write; `replaceFails` a failure of os.replace.
mkstemp creates a fresh empty temporary file in the directory of the target; on
an inner failure the temporary file is unlinked and the exception re-raised
to the outer handler, which returns False. On success os.replace atomically
moves the temporary file onto the target. -/
def cache_save (st : CacheState) (files : String → Option FileData)
    (target tmp : String) (earlyFails writeFails replaceFails : Bool) : SaveResult :=
  if earlyFails then
    { ok := false, files := files }
  else
    let files1 := fun p => if p = tmp then some FileData.garbage else files p
    if writeFails then
      { ok := false, files := fun p => if p = tmp then none else files1 p }
    else
      let files2 := fun p =>
        if p = tmp then some (FileData.doc (serializeCache st)) else files1 p
      if replaceFails then
        { ok := false, files := fun p => if p = tmp then none else files2 p }
      else
        { ok := true,
          files := fun p =>
            if p = target then some (FileData.doc (serializeCache st))
            else if p = tmp then none else files2 p }

/-- C1. For every cache state and backing path, save() writes the serialized
collection through a fresh temporary file and a single atomic rename:
success happens exactly when no step fails, and then the target holds the
full serialized collection while every other path (the temporary one
included) is unchanged; on any failure the operation returns failure and
the filesystem is pointwise unchanged — the previous target remains and no
stray temporary file is left behind. -/
theorem C1_save_atomic (st : CacheState) (files : String → Option FileData)
    (target tmp : String) (earlyFails writeFails replaceFails : Bool)
    (hne : tmp ≠ target) (hfresh : files tmp = none) :
    ((cache_save st files target tmp earlyFails writeFails replaceFails).ok = true
      ↔ (earlyFails = false ∧ writeFails = false ∧ replaceFails = false))
    ∧ ((cache_save st files target tmp earlyFails writeFails replaceFails).ok = true →
        (cache_save st files target tmp earlyFails writeFails replaceFails).files target
            = some (FileData.doc (serializeCache st))
        ∧ ∀ p, p ≠ target →
            (cache_save st files target tmp earlyFails writeFails replaceFails).files p
              = files p)
    ∧ ((cache_save st files target tmp earlyFails writeFails replaceFails).ok = false →
        ∀ p, (cache_save st files target tmp earlyFails writeFails replaceFails).files p
          = files p) := by
  refine ⟨?_, ?_, ?_⟩
  · cases earlyFails <;> cases writeFails <;> cases replaceFails <;> simp [cache_save]
  · intro hok
    cases earlyFails <;> cases writeFails <;> cases replaceFails <;>
      simp [cache_save] at hok ⊢
    intro p hp
    by_cases hpt : p = tmp
    · subst hpt
      simp [hp, hfresh]
    · simp [hp, hpt]
  · intro hbad
    cases earlyFails <;> cases writeFails <;> cases replaceFails <;>
      simp [cache_save] at hbad ⊢ <;>
      intro p <;>
      by_cases hpt : p = tmp <;>
      simp [hpt, hfresh]

/-- Concrete sample filesystem whose backing file exists but is not
parseable cache JSON. -/
def fsGarbage : String → Option FileData :=
  fun p => if p = "cache.json" then some FileData.garbage else none

/-- Concrete sample state used by closed instances. -/
def sampleState : CacheState :=
  { season := some 5, episodes := [CacheEntry.mk 1 "t" "u" "m" "2024-01-01"] }

/-- Closed instance of C1_save_atomic: a failed write over an existing
target leaves the filesystem unchanged at the target path. -/
theorem C1_save_atomic_witness :
    ((".tmp_a.json" : String) ≠ "cache.json" ∧ fsGarbage ".tmp_a.json" = none)
    ∧ (cache_save sampleState fsGarbage "cache.json" ".tmp_a.json"
        false true false).files "cache.json" = fsGarbage "cache.json" :=
  ⟨⟨by decide, by decide⟩,
    (C1_save_atomic sampleState fsGarbage "cache.json" ".tmp_a.json"
      false true false (by decide) (by decide)).2.2 rfl "cache.json"⟩

/-- C2 counterexample: load() over an unreadable file returns failure but
does not put the store into the default-empty state — the prior in-memory
state stays in place. -/
theorem C2_counterexample :
    (cache_load fsGarbage "cache.json" "2024-01-02" sampleState).ok = false
    ∧ (cache_load fsGarbage "cache.json" "2024-01-02" sampleState).state
        ≠ { season := none, episodes := [] } := by
  decide

/-- C2 (amended). A missing backing file initializes season = null and an
empty episode list and succeeds; an unreadable/unparseable file fails and
leaves the prior in-memory state in place; a parseable document with a
malformed episode entry fails with season updated and the episode list
keeping its prior value; a fully parseable document succeeds. -/
theorem C2_load_amended (files : String → Option FileData) (path now : String)
    (prior : CacheState) :
    (files path = none →
      cache_load files path now prior
        = { ok := true, state := { season := none, episodes := [] } })
    ∧ (files path = some FileData.garbage →
      cache_load files path now prior = { ok := false, state := prior })
    ∧ (∀ d, files path = some (FileData.doc d) →
        allSome (d.episodes.map (from_dict now)) = none →
        cache_load files path now prior
          = { ok := false,
              state := { season := d.season, episodes := prior.episodes } })
    ∧ (∀ d eps, files path = some (FileData.doc d) →
        allSome (d.episodes.map (from_dict now)) = some eps →
        cache_load files path now prior
          = { ok := true, state := { season := d.season, episodes := eps } }) := by
  refine ⟨?_, ?_, ?_, ?_⟩
  · intro h
    simp [cache_load, h]
  · intro h
    simp [cache_load, h]
  · intro d h hbad
    simp [cache_load, h, hbad]
  · intro d eps h hgood
    simp [cache_load, h, hgood]

/-- Closed instance of C2_load_amended: loading a nonexistent path succeeds
with the default-empty state. -/
theorem C2_load_amended_witness :
    fsGarbage "missing.json" = none
    ∧ cache_load fsGarbage "missing.json" "2024-01-02" sampleState
        = { ok := true, state := { season := none, episodes := [] } } :=
  ⟨by decide,
    (C2_load_amended fsGarbage "missing.json" "2024-01-02" sampleState).1 (by decide)⟩

/-- Serialization followed by parsing reproduces an episode list whose
extracted_at fields are nonempty, field for field. -/
theorem roundtrip_entries (now : String) (eps : List CacheEntry)
    (h : ∀ e ∈ eps, e.extracted_at ≠ "") :
    allSome ((eps.map to_dict).map (from_dict now)) = some eps := by
  induction eps with
  | nil => rfl
  | cons e rest ih =>
      have he : from_dict now (to_dict e) = some e := by
        simp [from_dict, to_dict, mkCacheEntry, h e (List.mem_cons_self e rest)]
      rw [List.map_cons, List.map_cons, he]
      show (allSome ((rest.map to_dict).map (from_dict now))).map _ = _
      rw [ih fun x hx => h x (List.mem_cons_of_mem e hx)]
      rfl

/-- C6. For every season and episode collection with populated fields,
save() to a location followed by load() on a fresh Cache bound to the same
location reproduces the season and the episodes field for field. -/
theorem C6_round_trip (st : CacheState) (files : String → Option FileData)
    (target tmp now : String)
    (hpop : ∀ e ∈ st.episodes, e.extracted_at ≠ "") :
    cache_load (cache_save st files target tmp false false false).files
        target now freshCache
      = { ok := true, state := { season := st.season, episodes := st.episodes } } := by
  have hfile : (cache_save st files target tmp false false false).files target
      = some (FileData.doc (serializeCache st)) := by
    simp [cache_save]
  have hrt := roundtrip_entries now st.episodes hpop
  rw [List.map_map] at hrt
  simp [cache_load, hfile, serializeCache, hrt]

/-- Closed instance of C6_round_trip at a concrete two-episode state. -/
theorem C6_round_trip_witness :
    (∀ e ∈ sampleState.episodes, e.extracted_at ≠ "")
    ∧ cache_load (cache_save sampleState fsGarbage "cache.json" ".tmp_b.json"
          false false false).files "cache.json" "2024-02-02" freshCache
        = { ok := true,
            state := { season := sampleState.season,
                       episodes := sampleState.episodes } } :=
  ⟨by decide,
    C6_round_trip sampleState fsGarbage "cache.json" ".tmp_b.json" "2024-02-02"
      (by decide)⟩

/-- C10. For every existing backing file that parses as cache JSON, load()
sets the in-memory episode list to exactly the episodes array of the file in
file order — no sorting, no deduplication — and a later add_episode
re-sorts the list. -/
theorem C10_load_preserves_file_order (files : String → Option FileData)
    (path now : String) (prior : CacheState) (d : CacheDoc)
    (eps : List CacheEntry)
    (h1 : files path = some (FileData.doc d))
    (h2 : allSome (d.episodes.map (from_dict now)) = some eps) :
    (cache_load files path now prior).ok = true
    ∧ get_all_episodes (cache_load files path now prior).state = eps
    ∧ ∀ e, (add_episode (cache_load files path now prior).state e).episodes.Pairwise
        fun a b => a.episode_number ≤ b.episode_number := by
  refine ⟨?_, ?_, fun e => add_episode_sorted _ e⟩
  · simp [cache_load, h1, h2]
  · simp [cache_load, h1, h2, get_all_episodes]

/-- Document whose episodes array is unsorted and has a duplicated episode
number. -/
def unsortedDoc : CacheDoc :=
  { season := some 2,
    episodes :=
      [ { episode_number := some 3, title := some "c", episode_url := some "uc",
          m3u8_url := some "mc", extracted_at := some "t3" },
        { episode_number := some 1, title := some "a", episode_url := some "ua",
          m3u8_url := some "ma", extracted_at := some "t1" },
        { episode_number := some 3, title := some "d", episode_url := some "ud",
          m3u8_url := some "md", extracted_at := some "t4" } ] }

/-- Backing filesystem holding unsortedDoc at the cache path. -/
def fsUnsorted : String → Option FileData :=
  fun p => if p = "cache.json" then some (FileData.doc unsortedDoc) else none

/-- Closed instance of C10_load_preserves_file_order: an unsorted file with
a duplicated episode number loads verbatim, in file order. -/
theorem C10_load_preserves_file_order_witness :
    (fsUnsorted "cache.json" = some (FileData.doc unsortedDoc)
      ∧ allSome (unsortedDoc.episodes.map (from_dict "now"))
          = some [CacheEntry.mk 3 "c" "uc" "mc" "t3",
                  CacheEntry.mk 1 "a" "ua" "ma" "t1",
                  CacheEntry.mk 3 "d" "ud" "md" "t4"])
    ∧ get_all_episodes (cache_load fsUnsorted "cache.json" "now" freshCache).state
        = [CacheEntry.mk 3 "c" "uc" "mc" "t3", CacheEntry.mk 1 "a" "ua" "ma" "t1",
           CacheEntry.mk 3 "d" "ud" "md" "t4"] :=
  ⟨⟨by decide, by decide⟩,
    (C10_load_preserves_file_order fsUnsorted "cache.json" "now" freshCache
      unsortedDoc
      [CacheEntry.mk 3 "c" "uc" "mc" "t3", CacheEntry.mk 1 "a" "ua" "ma" "t1",
       CacheEntry.mk 3 "d" "ud" "md" "t4"]
      (by decide) (by decide)).2.1⟩

/-! Batch preprocessor model (preprocessor.py, Preprocessor.process_url_list).
The extractor is an oracle returning the Python 3-tuple
(m3u8_url, episode_title, error) as a positional list, so that tuple
unpacking arity is visible; exceptions travel in Except and the outer
try/except of process_url_list turns any of them into a False return. -/

/-- Python tuple unpacking `a, b = t`: succeeds only on exactly two values. -/
def unpack2 {α : Type} (vs : List α) : Except String (α × α) :=
  match vs with
  | [] => Except.error "ValueError: not enough values to unpack"
  | [_] => Except.error "ValueError: not enough values to unpack"
  | [a, b] => Except.ok (a, b)
  | _ => Except.error "ValueError: too many values to unpack"

/-- One iteration of the loop of process_url_list at 1-based position i:
unpack the extractor result into (m3u8_url, title); on a missing manifest
log and continue; otherwise derive the episode number from the title when
truthy, falling back to the position, and build the entry — whose
episode_url expression reads the name `url`, which is never defined in
process_url_list (a NameError). -/
def process_item (extract3 : String → List (Option String))
    (extract_num : String → Option Nat) (now : String) (i : Nat)
    (st : CacheState) (item : String) : Except String CacheState := do
  let (m3u8, title) ← unpack2 (extract3 item)
  match m3u8 with
  | none => pure st
  | some u => do
      let episode_number : Int :=
        match title with
        | some t =>
            if t ≠ "" then
              match extract_num t with
              | some n => if n ≠ 0 then (n : Int) else (i : Int)
              | none => (i : Int)
            else (i : Int)
        | none => (i : Int)
      let url ← (Except.error "NameError: name url is not defined" :
        Except String String)
      let entry := mkCacheEntry episode_number
        (match title with
          | some t => if t ≠ "" then t else "Episode " ++ toString episode_number
          | none => "Episode " ++ toString episode_number)
        url u none now
      pure (add_episode st entry)

/-- The loop of process_url_list over the remaining items. -/
def process_go (extract3 : String → List (Option String))
    (extract_num : String → Option Nat) (now : String) :
    Nat → CacheState → List String → Except String CacheState
  | _, st, [] => pure st
  | i, st, item :: rest => do
      let st' ← process_item extract3 extract_num now i st item
      process_go extract3 extract_num now (i + 1) st' rest

/-- Preprocessor.process_url_list: empty URL list fails; otherwise run the
loop from position 1 over a cache initialized with the season, then persist
once; the outer except turns any raised exception into a False return with
nothing persisted. -/
def process_url_list (extract3 : String → List (Option String))
    (extract_num : String → Option Nat) (urls : List String) (season : Int)
    (files : String → Option FileData) (cache_file tmp now : String) :
    Bool × (String → Option FileData) :=
  if urls.isEmpty then (false, files)
  else
    match process_go extract3 extract_num now 1
        { season := some season, episodes := [] } urls with
    | Except.ok st =>
        let r := cache_save st files cache_file tmp false false false
        (r.ok, r.files)
    | Except.error _ => (false, files)

theorem except_error_bind {ε α β : Type} (e : ε) (f : α → Except ε β) :
    (Except.error e >>= f) = Except.error e :=
  rfl

theorem unpack2_of_length_three {α : Type} (vs : List α) (h : vs.length = 3) :
    unpack2 vs = Except.error "ValueError: too many values to unpack" := by
  cases vs with
  | nil => simp at h
  | cons a t =>
      cases t with
      | nil => simp at h
      | cons b t2 =>
          cases t2 with
          | nil => simp at h
          | cons c t3 => rfl

/-- C3. The claim says a failing source is logged and skipped and the batch
continues; in the code every source — failing or not — makes process_url_list
abort: the extractor returns the 3-tuple (m3u8_url, title, error), the loop
unpacks it into two variables, the resulting ValueError propagates to the
outer handler, and the whole batch returns failure with nothing cached. -/
theorem C3_batch_aborts (extract3 : String → List (Option String))
    (extract_num : String → Option Nat) (u : String) (us : List String)
    (season : Int) (files : String → Option FileData) (cache_file tmp now : String)
    (h3 : (extract3 u).length = 3) :
    process_url_list extract3 extract_num (u :: us) season files cache_file tmp now
      = (false, files) := by
  have hu := unpack2_of_length_three (extract3 u) h3
  simp [process_url_list, process_go, process_item, hu, except_error_bind]

/-- Closed instance of C3_batch_aborts: even a single source whose
extraction fully succeeds aborts the batch with failure. -/
theorem C3_batch_aborts_witness :
    ((fun _ : String =>
        [some "https://host/hls.m3u8?viewerToken=tok", some "Episode 1", none])
          "ep1.html").length = 3
    ∧ process_url_list
        (fun _ : String =>
          [some "https://host/hls.m3u8?viewerToken=tok", some "Episode 1", none])
        (fun _ => none) ["ep1.html"] 1 fsGarbage "cache.json" ".tmp_c.json" "now"
        = (false, fsGarbage) :=
  ⟨rfl,
    C3_batch_aborts
      (fun _ : String =>
        [some "https://host/hls.m3u8?viewerToken=tok", some "Episode 1", none])
      (fun _ => none) "ep1.html" [] 1 fsGarbage "cache.json" ".tmp_c.json" "now"
      rfl⟩

/-! URL extractor model (extractor.py). HTML parsing itself is external
(BeautifulSoup); the document is modelled by the values the code reads from
it: the content attribute of the og:url meta tag, the raw document text,
and the textual content of the script elements (an empty string standing
for a script with no usable .string, which the code skips). Regular
expressions are modelled over ASCII character classes. -/

/-- Python regex \s over ASCII. -/
def isPySpace (c : Char) : Bool :=
  c == ' ' || c == '\t' || c == '\n' || c == '\r' || c == '\x0b' || c == '\x0c'

/-- Character admitted by the regex class [^"\s]. -/
def isUrlChar (c : Char) : Bool :=
  !(c == '"' || isPySpace c)

/-- Digit group read as the captured integer. -/
def digitsToNat (ds : List Char) : Nat :=
  ds.foldl (fun n c => 10 * n + (c.toNat - '0'.toNat)) 0

/-- Fixed middle part of the manifest pattern
https://[^"\s]+/hls\.m3u8\?viewerToken=[^"\s]+ . -/
def manifestMarker : List Char :=
  "/hls.m3u8?viewerToken=".toList

/-- The marker occurs inside the run at an index leaving at least one
[^"\s] char on each side of it after the https:// head. -/
def hasProperMarker (run : List Char) : Bool :=
  (List.range run.length).any fun j =>
    decide (9 ≤ j) && List.isPrefixOf manifestMarker (run.drop j)
      && decide (j + manifestMarker.length < run.length)

/-- Leftmost-greedy match of the manifest pattern anchored at the head of l.
All pattern pieces exclude quote and whitespace, so a successful match is
exactly the maximal [^"\s] run at this position, provided the run starts
with https:// and properly contains the marker. -/
def matchManifestAt (l : List Char) : Option (List Char) :=
  let run := l.takeWhile isUrlChar
  if List.isPrefixOf "https://".toList run && hasProperMarker run then
    some run
  else none

/-- First (leftmost) match of the manifest pattern in the text: the value of
re.findall(...)[0]. -/
def findFirstManifest : List Char → Option (List Char)
  | [] => none
  | c :: cs =>
      match matchManifestAt (c :: cs) with
      | some m => some m
      | none => findFirstManifest cs

/-- Values extractor.py reads out of the parsed HTML document. -/
structure HtmlDoc where
  og_url : Option String
  og_title : Option String
  title_tag : Option String
  raw : String
  scripts : List String
deriving DecidableEq, Repr

/-- Python substring test `pat in s` over the character list of s. -/
def containsList (pat : List Char) : List Char → Bool
  | [] => pat.isEmpty
  | c :: cs => List.isPrefixOf pat (c :: cs) || containsList pat cs

/-- Python `pat in s` on strings. -/
def strContains (s pat : String) : Bool :=
  containsList pat.toList s.toList

/-- Strategy 1 of _extract_m3u8_url: the og:url meta content, accepted only
when truthy and containing both markers; otherwise fall through. -/
def strategy1_og_url (doc : HtmlDoc) : Option String :=
  match doc.og_url with
  | some u =>
      if decide (u ≠ "") && strContains u "hls.m3u8"
          && strContains u "viewerToken=" then
        some u
      else none
  | none => none

/-- Strategy 2: regex scan of the raw document text, first match wins. -/
def strategy2_raw (doc : HtmlDoc) : Option String :=
  Option.map String.mk (findFirstManifest doc.raw.toList)

/-- Strategy 3: the same scan over the text of each script element, first script
with a match wins. -/
def scanScripts : List String → Option String
  | [] => none
  | s :: rest =>
      if s ≠ "" then
        match findFirstManifest s.toList with
        | some m => some (String.mk m)
        | none => scanScripts rest
      else scanScripts rest

/-- URLExtractor._extract_m3u8_url: the three strategies in order, each
tried only when the previous produced nothing. -/
def extract_m3u8_url (doc : HtmlDoc) : Option String :=
  match strategy1_og_url doc with
  | some u => some u
  | none =>
      match strategy2_raw doc with
      | some u => some u
      | none => scanScripts doc.scripts

/-- C7. The og:url metadata URL wins whenever it is truthy and carries both
markers, regardless of what the raw text or the scripts contain; and in
general each later strategy runs only when every earlier one produced
nothing, the scans returning their first match. -/
theorem C7_manifest_precedence (doc : HtmlDoc) :
    (∀ u, doc.og_url = some u → u ≠ "" →
      strContains u "hls.m3u8" = true → strContains u "viewerToken=" = true →
      extract_m3u8_url doc = some u)
    ∧ (∀ v, strategy1_og_url doc = some v → extract_m3u8_url doc = some v)
    ∧ (∀ v, strategy1_og_url doc = none → strategy2_raw doc = some v →
        extract_m3u8_url doc = some v)
    ∧ (strategy1_og_url doc = none → strategy2_raw doc = none →
        extract_m3u8_url doc = scanScripts doc.scripts) := by
  refine ⟨?_, ?_, ?_, ?_⟩
  · intro u h1 h2 h3 h4
    have hs1 : strategy1_og_url doc = some u := by
      simp [strategy1_og_url, h1, h2, h3, h4]
    simp [extract_m3u8_url, hs1]
  · intro v hv
    simp [extract_m3u8_url, hv]
  · intro v h1 h2
    simp [extract_m3u8_url, h1, h2]
  · intro h1 h2
    simp [extract_m3u8_url, h1, h2]

/-- Document whose metadata URL and raw text carry two different manifest
URLs; a third one sits in a script element. -/
def sampleDoc : HtmlDoc :=
  { og_url := some "https://one/hls.m3u8?viewerToken=AAA",
    og_title := some "Episode 1",
    title_tag := some "Episode 1",
    raw := "x https://two/hls.m3u8?viewerToken=BBB y",
    scripts := ["https://three/hls.m3u8?viewerToken=CCC "] }

/-- Closed instance of C7_manifest_precedence: the metadata URL is returned
even though the raw text and a script hold differing manifest URLs. -/
theorem C7_manifest_precedence_witness :
    (sampleDoc.og_url = some "https://one/hls.m3u8?viewerToken=AAA"
      ∧ ("https://one/hls.m3u8?viewerToken=AAA" : String) ≠ ""
      ∧ strContains "https://one/hls.m3u8?viewerToken=AAA" "hls.m3u8" = true
      ∧ strContains "https://one/hls.m3u8?viewerToken=AAA" "viewerToken=" = true
      ∧ strategy2_raw sampleDoc = some "https://two/hls.m3u8?viewerToken=BBB"
      ∧ scanScripts sampleDoc.scripts = some "https://three/hls.m3u8?viewerToken=CCC")
    ∧ extract_m3u8_url sampleDoc = some "https://one/hls.m3u8?viewerToken=AAA" :=
  ⟨⟨rfl, by decide, by decide, by decide, by decide, by decide⟩,
    (C7_manifest_precedence sampleDoc).1 "https://one/hls.m3u8?viewerToken=AAA"
      rfl (by decide) (by decide) (by decide)⟩

/-! Episode-number extraction (URLExtractor.extract_episode_number): the
four regex patterns tried in order with re.IGNORECASE, re.search returning
the leftmost match, the digit group captured greedily. -/

/-- Case-insensitive literal prefix test (pattern given in lowercase). -/
def ciPrefix : List Char → List Char → Bool
  | [], _ => true
  | _ :: _, [] => false
  | p :: ps, c :: cs => (c.toLower == p) && ciPrefix ps cs

/-- Pattern Episode\s+(\d+) anchored at the head of l. -/
def matchEpisodeAt (l : List Char) : Option Nat :=
  if ciPrefix "episode".toList l then
    let rest := l.drop 7
    let ws := rest.takeWhile isPySpace
    if ws.isEmpty then none
    else
      let ds := (rest.drop ws.length).takeWhile Char.isDigit
      if ds.isEmpty then none else some (digitsToNat ds)
  else none

/-- Pattern Ep\s+(\d+) anchored at the head of l. -/
def matchEpAt (l : List Char) : Option Nat :=
  if ciPrefix "ep".toList l then
    let rest := l.drop 2
    let ws := rest.takeWhile isPySpace
    if ws.isEmpty then none
    else
      let ds := (rest.drop ws.length).takeWhile Char.isDigit
      if ds.isEmpty then none else some (digitsToNat ds)
  else none

/-- Pattern E(\d+) anchored at the head of l. -/
def matchEAt (l : List Char) : Option Nat :=
  match l with
  | [] => none
  | c :: cs =>
      if c.toLower == 'e' then
        let ds := cs.takeWhile Char.isDigit
        if ds.isEmpty then none else some (digitsToNat ds)
      else none

/-- Pattern 第\s*(\d+)\s*集 anchored at the head of l. -/
def matchCJKAt (l : List Char) : Option Nat :=
  match l with
  | [] => none
  | c :: cs =>
      if c == '第' then
        let ws := cs.takeWhile isPySpace
        let ds := (cs.drop ws.length).takeWhile Char.isDigit
        if ds.isEmpty then none
        else
          let after := (cs.drop ws.length).drop ds.length
          let ws2 := after.takeWhile isPySpace
          match after.drop ws2.length with
          | d :: _ => if d == '集' then some (digitsToNat ds) else none
          | [] => none
      else none

/-- re.search: try the anchored matcher at each position left to right. -/
def searchPattern (f : List Char → Option Nat) : List Char → Option Nat
  | [] => none
  | c :: cs =>
      match f (c :: cs) with
      | some n => some n
      | none => searchPattern f cs

/-- URLExtractor.extract_episode_number: the four patterns in order, the
first one that matches anywhere in the title wins. -/
def extract_episode_number (title : String) : Option Nat :=
  match searchPattern matchEpisodeAt title.toList with
  | some n => some n
  | none =>
      match searchPattern matchEpAt title.toList with
      | some n => some n
      | none =>
          match searchPattern matchEAt title.toList with
          | some n => some n
          | none => searchPattern matchCJKAt title.toList

/-- C8. The three specified examples evaluate as claimed; the result is
absent exactly when no pattern matches; and a match of the first pattern wins
over the later patterns. -/
theorem C8_episode_number_parsing :
    extract_episode_number "Season 1 Episode 7: Title" = some 7
    ∧ extract_episode_number "第 3 集" = some 3
    ∧ extract_episode_number "Random Title" = none
    ∧ (∀ t : String, extract_episode_number t = none ↔
        (searchPattern matchEpisodeAt t.toList = none
          ∧ searchPattern matchEpAt t.toList = none
          ∧ searchPattern matchEAt t.toList = none
          ∧ searchPattern matchCJKAt t.toList = none))
    ∧ (∀ (t : String) (n : Nat), searchPattern matchEpisodeAt t.toList = some n →
        extract_episode_number t = some n) := by
  refine ⟨by decide, by decide, by decide, ?_, ?_⟩
  · intro t
    rcases h1 : searchPattern matchEpisodeAt t.toList with _ | n1 <;>
      rcases h2 : searchPattern matchEpAt t.toList with _ | n2 <;>
      rcases h3 : searchPattern matchEAt t.toList with _ | n3 <;>
      rcases h4 : searchPattern matchCJKAt t.toList with _ | n4 <;>
      simp only [String.toList] at h1 h2 h3 h4 <;>
      simp [extract_episode_number, h1, h2, h3, h4]
  · intro t n h1
    simp only [String.toList] at h1
    simp [extract_episode_number, h1]

/-- Closed instance of C8_episode_number_parsing: a match of the first pattern
is the returned value. -/
theorem C8_episode_number_parsing_witness :
    searchPattern matchEpisodeAt ("Episode 12" : String).toList = some 12
    ∧ extract_episode_number "Episode 12" = some 12 :=
  ⟨by decide,
    C8_episode_number_parsing.2.2.2.2 "Episode 12" 12 (by decide)⟩

/-! Episode selector model (cli.py, parse_episode_selection). Python string
operations are modelled over character lists: str.split with a one-char
separator, str.strip, and int() with surrounding whitespace and an optional
sign (digit-group underscores are not modelled). Printed warnings are
accumulated as message strings. -/

/-- Python str.split(sep) for a single-character separator: every occurrence
splits, empty pieces are kept, the empty string yields one empty piece. -/
def splitOnChar (sep : Char) : List Char → List (List Char)
  | [] => [[]]
  | c :: cs =>
      match splitOnChar sep cs with
      | [] => if c == sep then [[], []] else [[c]]
      | cur :: rest => if c == sep then [] :: cur :: rest else (c :: cur) :: rest

/-- Python str.strip() over the ASCII whitespace set. -/
def pyStrip (l : List Char) : List Char :=
  ((l.dropWhile isPySpace).reverse.dropWhile isPySpace).reverse

/-- Nonempty all-digit group read as a number. -/
def pyIntDigits (l : List Char) : Option Nat :=
  if !l.isEmpty && l.all Char.isDigit then some (digitsToNat l) else none

/-- Python int(s) on a string: strip whitespace, optional sign, digits. -/
def pyInt (l : List Char) : Option Int :=
  match pyStrip l with
  | '+' :: rest => (pyIntDigits rest).map fun n => (n : Int)
  | '-' :: rest => (pyIntDigits rest).map fun n => -(n : Int)
  | t => (pyIntDigits t).map fun n => (n : Int)

/-- One comma-delimited term of parse_episode_selection: a stripped term
containing a hyphen is a range looked up inclusively (any int() or
unpacking failure warns and yields nothing); otherwise a bare integer is an
exact lookup, warning when absent or unparseable. -/
def process_term (st : CacheState) (part0 : List Char) :
    List CacheEntry × List String :=
  let part := pyStrip part0
  if part.contains '-' then
    match splitOnChar '-' part with
    | [a, b] =>
        match pyInt a, pyInt b with
        | some s, some e => (get_episodes_in_range st s e, [])
        | _, _ => ([], ["Warning: Invalid range: " ++ String.mk part])
    | _ => ([], ["Warning: Invalid range: " ++ String.mk part])
  else
    match pyInt part with
    | some n =>
        match get_episode st n with
        | some ep => ([ep], [])
        | none => ([], ["Warning: Episode " ++ toString n ++ " not found in cache"])
    | none => ([], ["Warning: Invalid episode number: " ++ String.mk part])

/-- cli.parse_episode_selection: loop over the comma-separated terms,
appending the episodes and warnings of each term. -/
def parse_episode_selection (selection : String) (st : CacheState) :
    List CacheEntry × List String :=
  (splitOnChar ',' selection.toList).foldl
    (fun acc p =>
      (acc.1 ++ (process_term st p).1, acc.2 ++ (process_term st p).2))
    ([], [])

theorem parse_selection_foldl_acc (st : CacheState) (parts : List (List Char)) :
    ∀ (a : List CacheEntry) (w : List String),
      parts.foldl
        (fun acc p =>
          (acc.1 ++ (process_term st p).1, acc.2 ++ (process_term st p).2))
        (a, w)
      = (a ++ parts.foldr (fun p acc => (process_term st p).1 ++ acc) [],
         w ++ parts.foldr (fun p acc => (process_term st p).2 ++ acc) []) := by
  induction parts with
  | nil => intro a w; simp
  | cons p ps ih =>
      intro a w
      simp [List.foldl_cons, List.foldr_cons, ih, List.append_assoc]

/-- Concrete cache with episodes numbered 1 through 5. -/
def cacheFive : CacheState :=
  { season := some 1,
    episodes :=
      [ CacheEntry.mk 1 "E1" "u1" "m1" "t",
        CacheEntry.mk 2 "E2" "u2" "m2" "t",
        CacheEntry.mk 3 "E3" "u3" "m3" "t",
        CacheEntry.mk 4 "E4" "u4" "m4" "t",
        CacheEntry.mk 5 "E5" "u5" "m5" "t" ] }

/-- C9. The selection result is the concatenation, in term order, of the
range lookup or single lookup of each term, with malformed or absent terms
contributing only a warning; the specified examples evaluate as claimed,
and overlapping terms are not deduplicated. -/
theorem C9_selection_parsing :
    (∀ (selection : String) (st : CacheState),
      parse_episode_selection selection st
        = ((splitOnChar ',' selection.toList).foldr
            (fun p acc => (process_term st p).1 ++ acc) [],
           (splitOnChar ',' selection.toList).foldr
            (fun p acc => (process_term st p).2 ++ acc) []))
    ∧ parse_episode_selection "2-4" cacheFive
        = ([CacheEntry.mk 2 "E2" "u2" "m2" "t", CacheEntry.mk 3 "E3" "u3" "m3" "t",
            CacheEntry.mk 4 "E4" "u4" "m4" "t"], [])
    ∧ parse_episode_selection "2,4" cacheFive
        = ([CacheEntry.mk 2 "E2" "u2" "m2" "t", CacheEntry.mk 4 "E4" "u4" "m4" "t"], [])
    ∧ parse_episode_selection "99" cacheFive
        = ([], ["Warning: Episode 99 not found in cache"])
    ∧ parse_episode_selection "abc" cacheFive
        = ([], ["Warning: Invalid episode number: abc"])
    ∧ parse_episode_selection "2-3,3" cacheFive
        = ([CacheEntry.mk 2 "E2" "u2" "m2" "t", CacheEntry.mk 3 "E3" "u3" "m3" "t",
            CacheEntry.mk 3 "E3" "u3" "m3" "t"], []) := by
  refine ⟨?_, by decide, by decide, by decide, by decide, by decide⟩
  intro selection st
  exact parse_selection_foldl_acc st (splitOnChar ',' selection.toList) [] []
